import Mathlib

/-!
Verification development for the edge-autopilot repository.

The embedded code is `src/smart-detector.js` (the `SmartDetector` class:
`detect`, `calculateRisk`, `riskLevel`, `checkDangerous`, `recordAction`,
`getInsights`, `shouldAutoAccept`), `src/supervisor-v2.js` (the operative
`Supervisor`: `runSingle`, `runQueue`, `handleAction`,
`setupDashboardEvents` approval handlers) and the legacy v1 `Supervisor`
(`runSingle`, `handleAction`).

Conventions of the embedding:
* JavaScript numbers are modelled by rationals (`ℚ`) together with an
  explicit `nan` state (`JSNum`), because one risk factor is an `async`
  function whose returned Promise poisons the arithmetic (see `jsAddFactor`).
* Regular-expression matching against the scanned text is an input: a
  `RegexOracle` maps each regex literal of the pattern tables to the result
  that `String.prototype.match` produces on the given text.  All control
  flow around the regex engine (tables, confidences, sorting, selection,
  risk arithmetic, state updates) is embedded concretely.
* Regexes appearing inside risk-factor bodies are simple enough
  (literals, alternations, `\s+`, `\s*`, `.*`, `[_-]?`, anchors) to be
  executed faithfully by the small matcher combinators below.
* JavaScript `Map` objects are modelled by insertion-ordered association
  lists with the `Map.get` / `Map.set` / `Map.delete` semantics.
-/

namespace EdgeAutopilot

/-! ## JavaScript numeric values -/

/-- A JavaScript value at the numeric positions of the detector.
`num q` is an ordinary finite number.  `nan` stands for every state whose
`ToNumber` conversion is NaN: the NaN double itself, and the non-numeric
string produced when `+` is applied to a Promise (a Promise has no
`Symbol.toPrimitive` and `valueOf` returns the object, so `ToPrimitive`
falls back to `toString`, giving the string `[object Promise]`; adding it
to a number yields a string such as `0.3[object Promise]`, which converts
to NaN inside `Math.min` / `Math.max`). -/
inductive JSNum where
  | num (q : ℚ)
  | nan
deriving DecidableEq

/-- What a risk-factor function returns when called: a finite number, or a
Promise (the `async` factor `unknown_package` of `npm_install`). -/
inductive FactorValue where
  | fin (q : ℚ)
  | promiseVal
deriving DecidableEq

/-- `risk += factorRisk` from `calculateRisk`.  Adding a finite number to a
finite number is rational addition.  Adding a Promise turns the accumulator
into the non-numeric string `...[object Promise]`; adding further numbers
to that string concatenates and keeps it non-numeric, so the accumulator
stays in the `nan` state (its `ToNumber` is NaN). -/
def jsAddFactor : JSNum → FactorValue → JSNum
  | JSNum.num r, FactorValue.fin q => JSNum.num (r + q)
  | _, FactorValue.promiseVal => JSNum.nan
  | JSNum.nan, FactorValue.fin _ => JSNum.nan

/-- `Math.min(a, b)`: NaN if either argument converts to NaN. -/
def jsMin : JSNum → JSNum → JSNum
  | JSNum.num a, JSNum.num b => JSNum.num (min a b)
  | _, _ => JSNum.nan

/-- `Math.max(a, b)`: NaN if either argument converts to NaN. -/
def jsMax : JSNum → JSNum → JSNum
  | JSNum.num a, JSNum.num b => JSNum.num (max a b)
  | _, _ => JSNum.nan

/-- `a + b` on two already-numeric values (used by `getInsights`). -/
def jsAdd : JSNum → JSNum → JSNum
  | JSNum.num a, JSNum.num b => JSNum.num (a + b)
  | _, _ => JSNum.nan

/-- `a / n` for a natural divisor (used by `getInsights`; the source guards
the division with `history.length > 0`). -/
def jsDiv : JSNum → ℕ → JSNum
  | JSNum.num a, n => if n = 0 then JSNum.nan else JSNum.num (a / n)
  | JSNum.nan, _ => JSNum.nan

/-- `x > q` in JavaScript: false when `x` is NaN. -/
def jsGtQ : JSNum → ℚ → Bool
  | JSNum.num a, q => a > q
  | JSNum.nan, _ => false

/-- `x < q` in JavaScript: false when `x` is NaN. -/
def jsLtQ : JSNum → ℚ → Bool
  | JSNum.num a, q => a < q
  | JSNum.nan, _ => false

/-- `1 - x` in JavaScript: NaN-propagating. -/
def jsOneMinus : JSNum → JSNum
  | JSNum.num a => JSNum.num (1 - a)
  | JSNum.nan => JSNum.nan

/-! ## String helpers and the regex-fragment matcher

The factor bodies test a handful of regexes against their (plain string)
arguments.  Each of those regexes is built from literals, alternations,
`\s+`, `\s*`, `.*`, one optional character class and anchors, so they are
executed here by small continuation-style combinators over `List Char`.
-/

/-- JavaScript `String.prototype.startsWith`. -/
def strStartsWith (s p : String) : Bool :=
  p.toList.isPrefixOf s.toList

/-- JavaScript `String.prototype.endsWith`. -/
def strEndsWith (s p : String) : Bool :=
  p.toList.isSuffixOf s.toList

/-- JavaScript `String.prototype.split` with a one-character separator
(`"".split(sep)` is `[""]`, like in JS). -/
def splitOnChar (sep : Char) : List Char → List (List Char)
  | [] => [[]]
  | c :: rest =>
      match splitOnChar sep rest with
      | [] => [[]]
      | g :: gs => if c = sep then [] :: g :: gs else (c :: g) :: gs

/-- `pat` occurs as a contiguous infix of `s` (the unanchored
`RegExp.test` of a pure literal pattern). -/
def listInfix (pat : List Char) : List Char → Bool
  | [] => pat.isEmpty
  | c :: rest => pat.isPrefixOf (c :: rest) || listInfix pat rest

/-- `re.test(s)` for a literal regex `pat` (no metacharacters). -/
def strContains (s pat : String) : Bool :=
  listInfix pat.toList s.toList

/-- Case-insensitive variant (the `/i` flag): both sides lower-cased. -/
def strContainsCI (s pat : String) : Bool :=
  listInfix (pat.toList.map Char.toLower) (s.toList.map Char.toLower)

/-- JavaScript `\s` on the character range used by the scanned texts. -/
def isJSWhitespace (c : Char) : Bool :=
  c = ' ' || c = '\t' || c = '\n' || c = '\r' || c = '\x0b' || c = '\x0c'

/-- JavaScript line terminators, which `.` does not match. -/
def isLineTerminator (c : Char) : Bool :=
  c = '\n' || c = '\r' || c = '\u2028' || c = '\u2029'

/-- Match a literal, then continue with `k`. -/
def litCont (a : List Char) (k : List Char → Bool) (s : List Char) : Bool :=
  a.isPrefixOf s && k (s.drop a.length)

/-- Match `\s+`, then continue with `k`. -/
def wsPlusCont (k : List Char → Bool) : List Char → Bool
  | [] => false
  | c :: rest => isJSWhitespace c && (k rest || wsPlusCont k rest)

/-- Match `\s*`, then continue with `k`. -/
def wsStarCont (k : List Char → Bool) : List Char → Bool
  | [] => k []
  | c :: rest => k (c :: rest) || (isJSWhitespace c && wsStarCont k rest)

/-- Match `.*` (any characters except line terminators), then continue. -/
def dotStarCont (k : List Char → Bool) : List Char → Bool
  | [] => k []
  | c :: rest => k (c :: rest) || (!isLineTerminator c && dotStarCont k rest)

/-- Match one optional character out of `cs`, then continue with `k`. -/
def optCharCont (cs : List Char) (k : List Char → Bool) : List Char → Bool
  | [] => k []
  | c :: rest => k (c :: rest) || (cs.contains c && k rest)

/-- Unanchored search: try the compiled pattern at every position. -/
def searchCont (k : List Char → Bool) : List Char → Bool
  | [] => k []
  | c :: rest => k (c :: rest) || searchCont k rest

/-- The always-succeeding continuation (end of a pattern). -/
def endCont : List Char → Bool := fun _ => true

/-! ## Action types, risk levels, JS Map operations -/

/-- The action-type tags of `SmartDetector.actionDefs`, plus the synthetic
`dangerous_command` produced by the dangerous-pattern check. -/
inductive ActionType where
  | file_create
  | file_edit
  | file_delete
  | terminal_command
  | npm_install
  | git_commit
  | git_push
  | database_operation
  | env_modification
  | approval_prompt
  | dangerous_command
deriving DecidableEq

/-- The JavaScript string tag of each action type (the object key). -/
def actionTypeName : ActionType → String
  | ActionType.file_create => "file_create"
  | ActionType.file_edit => "file_edit"
  | ActionType.file_delete => "file_delete"
  | ActionType.terminal_command => "terminal_command"
  | ActionType.npm_install => "npm_install"
  | ActionType.git_commit => "git_commit"
  | ActionType.git_push => "git_push"
  | ActionType.database_operation => "database_operation"
  | ActionType.env_modification => "env_modification"
  | ActionType.approval_prompt => "approval_prompt"
  | ActionType.dangerous_command => "dangerous_command"

/-- The five discrete risk levels. -/
inductive RiskLevel where
  | critical
  | high
  | medium
  | low
  | minimal
deriving DecidableEq

/-- Severity tag of a dangerous pattern. -/
inductive Severity where
  | critical
  | high
deriving DecidableEq

/-- `x >= q` in JavaScript: false when `x` is NaN. -/
def jsGeQ : JSNum → ℚ → Bool
  | JSNum.num a, q => a ≥ q
  | JSNum.nan, _ => false

/-- `SmartDetector.riskLevel`: the fixed threshold ladder.  With a NaN
score every comparison is false, so the result is `minimal`. -/
def riskLevel (score : JSNum) : RiskLevel :=
  if jsGeQ score (8/10) then RiskLevel.critical
  else if jsGeQ score (6/10) then RiskLevel.high
  else if jsGeQ score (4/10) then RiskLevel.medium
  else if jsGeQ score (2/10) then RiskLevel.low
  else RiskLevel.minimal

/-- The per-file counters stored in `fileStats`. -/
structure FileStat where
  creates : ℕ
  edits : ℕ
  deletes : ℕ
deriving DecidableEq

/-- `Map.prototype.get`: the value stored under `k`, if any. -/
def mapGet {β : Type} : List (String × β) → String → Option β
  | [], _ => none
  | (k2, v) :: rest, k => if k2 = k then some v else mapGet rest k

/-- `Map.prototype.set`: update in place when the key exists, otherwise
append at the end (JS maps preserve insertion order). -/
def mapSet {β : Type} : List (String × β) → String → β → List (String × β)
  | [], k, v => [(k, v)]
  | (k2, v2) :: rest, k, v =>
      if k2 = k then (k, v) :: rest else (k2, v2) :: mapSet rest k v

/-! ## Risk factors -/

/-- The arguments handed to a risk-factor function: the call in
`calculateRisk` is `factorFn(target, text, this.fileStats)`.  The
`production` factor of `database_operation` additionally reads
`process.env.NODE_ENV`, modelled by `prodEnv`. -/
structure FactorCtx where
  target : String
  text : String
  stats : List (String × FileStat)
  prodEnv : Bool

/-- A risk-factor function. -/
def RiskFactor : Type := FactorCtx → FactorValue

/-! `file_create` factors. -/

def path_depth : RiskFactor := fun ctx =>
  FactorValue.fin (if (splitOnChar '/' ctx.target.toList).length > 5 then 1/10 else 0)

def extension : RiskFactor := fun ctx =>
  let dangerous := [".sh", ".bash", ".env", ".pem", ".key"]
  FactorValue.fin (if dangerous.any (fun ext => strEndsWith ctx.target ext) then 4/10 else 0)

def system_path : RiskFactor := fun ctx =>
  FactorValue.fin
    (if strStartsWith ctx.target "/etc" || strStartsWith ctx.target "/usr" then 5/10 else 0)

/-! `file_edit` factors. -/

def config_file : RiskFactor := fun ctx =>
  let exts := [".json", ".yaml", ".yml", ".toml", ".ini", ".conf"]
  FactorValue.fin (if exts.any (fun ext => strEndsWith ctx.target ext) then 2/10 else 0)

def sensitive_file : RiskFactor := fun ctx =>
  let frags := [".env", ".pem", ".key", ".secret"]
  FactorValue.fin (if frags.any (fun f => strContains ctx.target f) then 5/10 else 0)

/-- The `frequency` factor of `file_edit` declares parameters
`(path, stats)`, but `calculateRisk` calls every factor as
`factorFn(target, text, this.fileStats)`, so `stats` is bound to the text
string.  `stats.get(path)` on a string throws a TypeError, the `catch` in
`calculateRisk` skips the contribution, and the factor always contributes
0 — equivalently, the additive identity (the intended edits-count lookup
in `this.fileStats` is never reached). -/
def frequency : RiskFactor := fun _ =>
  FactorValue.fin 0

/-! `file_delete` factors. -/

def recursive : RiskFactor := fun ctx =>
  FactorValue.fin
    (if searchCont (litCont "rm".toList (wsPlusCont (litCont "-r".toList endCont)))
        ctx.text.toList then 3/10 else 0)

def force : RiskFactor := fun ctx =>
  FactorValue.fin
    (if searchCont
        (litCont "rm".toList
          (wsPlusCont (dotStarCont (litCont "-f".toList endCont))))
        ctx.text.toList then 2/10 else 0)

def glob_pattern : RiskFactor := fun ctx =>
  FactorValue.fin
    (if ctx.target.toList.any (fun c => c = '*' || c = '?') then 4/10 else 0)

def important_file : RiskFactor := fun ctx =>
  let important := ["package.json", "tsconfig.json", ".gitignore", "Dockerfile"]
  FactorValue.fin (if important.any (fun f => strEndsWith ctx.target f) then 3/10 else 0)

/-! `terminal_command` factors (the first argument `cmd` is the target). -/

/- The source names this factor `sudo`; that word is a reserved token in
this Lean environment, hence the suffix. -/
def sudo_cmd : RiskFactor := fun ctx =>
  FactorValue.fin (if strContains ctx.target "sudo" then 5/10 else 0)

def pipe_to_shell : RiskFactor := fun ctx =>
  FactorValue.fin
    (if searchCont
        (litCont "|".toList
          (wsStarCont (fun s =>
            litCont "bash".toList endCont s || litCont "sh".toList endCont s ||
              litCont "zsh".toList endCont s)))
        ctx.target.toList then 6/10 else 0)

def curl_pipe : RiskFactor := fun ctx =>
  FactorValue.fin
    (if searchCont (litCont "curl".toList (dotStarCont (litCont "|".toList endCont)))
        ctx.target.toList then 5/10 else 0)

def network : RiskFactor := fun ctx =>
  let frags := ["curl", "wget", "nc", "netcat"]
  FactorValue.fin (if frags.any (fun f => strContains ctx.target f) then 3/10 else 0)

def destructive : RiskFactor := fun ctx =>
  let frags := ["rm", "kill", "pkill", "shutdown", "reboot"]
  FactorValue.fin (if frags.any (fun f => strContains ctx.target f) then 4/10 else 0)

/-! `npm_install` factors. -/

def global : RiskFactor := fun ctx =>
  FactorValue.fin
    (if strContains ctx.target "-g" || strContains ctx.target "--global"
     then 3/10 else 0)

/-- `unknown_package` is declared `async`, so calling it returns a Promise
(the body would resolve to a number, but `calculateRisk` adds the Promise
itself to the accumulator). -/
def unknown_package : RiskFactor := fun _ => FactorValue.promiseVal

def dev_only : RiskFactor := fun ctx =>
  FactorValue.fin
    (if strContains ctx.target "-D" || strContains ctx.target "--save-dev"
     then -(1/10) else 0)

/-! `git_commit` factors (the first argument `msg` is the target). -/

def empty_message : RiskFactor := fun ctx =>
  FactorValue.fin (if ctx.target = "" || ctx.target.length < 5 then 2/10 else 0)

def amend : RiskFactor := fun ctx =>
  FactorValue.fin (if strContains ctx.text "--amend" then 3/10 else 0)

/-! `git_push` factors (the first argument `branch` is the target). -/

def force_push : RiskFactor := fun ctx =>
  FactorValue.fin
    (if strContains ctx.text "-f" || strContains ctx.text "--force" then 4/10 else 0)

def main_branch : RiskFactor := fun ctx =>
  FactorValue.fin
    (if ctx.target = "main" || ctx.target = "master" || ctx.target = "prod"
     then 3/10 else 0)

def all_refs : RiskFactor := fun ctx =>
  FactorValue.fin (if strContains ctx.text "--all" then 2/10 else 0)

/-! `database_operation` factors. -/

def drop : RiskFactor := fun ctx =>
  FactorValue.fin (if strContains ctx.text "DROP" then 5/10 else 0)

def truncate : RiskFactor := fun ctx =>
  FactorValue.fin (if strContains ctx.text "TRUNCATE" then 4/10 else 0)

def production : RiskFactor := fun ctx =>
  FactorValue.fin (if ctx.prodEnv then 5/10 else 0)

/-! `env_modification` factors. -/

def secret_key : RiskFactor := fun ctx =>
  let frags := ["SECRET", "KEY", "TOKEN", "PASSWORD", "CREDENTIAL"]
  FactorValue.fin (if frags.any (fun f => strContainsCI ctx.text f) then 3/10 else 0)

def api_key : RiskFactor := fun ctx =>
  FactorValue.fin
    (if searchCont
        (litCont "api".toList
          (optCharCont ['_', '-'] (litCont "key".toList endCont)))
        (ctx.text.toList.map Char.toLower) then 2/10 else 0)

/-! ## The action-definition table -/

/-- One entry of a `patterns` list: the regex source literal (used as the
key into the `RegexOracle`) and the fixed confidence. -/
structure PatternDef where
  rx : String
  confidence : ℚ
deriving DecidableEq

/-- One entry of `SmartDetector.actionDefs`.  `riskFactors` keeps the
declaration order of the object literal (`Object.entries` enumerates
string keys in insertion order); an absent `riskFactors` field
(`approval_prompt`) is the empty list, which makes the guarded factor loop
a no-op exactly as in the source. -/
structure ActionDef where
  patterns : List PatternDef
  baseRisk : ℚ
  riskFactors : List (String × RiskFactor)

/-! The ten entries of `SmartDetector.actionDefs`, one named definition
each.  The regex literals are copied from the source (apostrophes written
`\x27`). -/

/-- The `file_create` entry of `SmartDetector.actionDefs`. -/
def file_create_def : ActionDef :=
  { patterns :=
    [ ⟨"(?:Creating|Writing|Generating)\\s+(?:new\\s+)?file[:\\s]+[\x27\"]?([^\\s\x27\"]+)", 95/100⟩
    , ⟨"touch\\s+([^\\s;|&]+)", 9/10⟩
    , ⟨">\\s*([^\\s;|&]+\\.\\w+)", 7/10⟩
    , ⟨"fs\\.writeFile(?:Sync)?\\s*\\(\\s*[\x27\"]([^\x27\"]+)", 95/100⟩
    , ⟨"echo\\s+.*>\\s*([^\\s;|&]+)", 8/10⟩ ]
    baseRisk := 2/10
    riskFactors :=
      [("path_depth", path_depth), ("extension", extension),
       ("system_path", system_path)] }

/-- The `file_edit` entry of `SmartDetector.actionDefs`. -/
def file_edit_def : ActionDef :=
  { patterns :=
    [ ⟨"(?:Editing|Modifying|Updating)\\s+(?:file\\s+)?[\x27\"]?([^\\s\x27\"]+)", 95/100⟩
    , ⟨"str_replace.*?(?:in|path)[:\\s]+[\x27\"]?([^\\s\x27\"]+)", 95/100⟩
    , ⟨"sed\\s+-i.*?\\s+([^\\s;|&]+)", 9/10⟩
    , ⟨"patch\\s+([^\\s;|&]+)", 85/100⟩ ]
    baseRisk := 3/10
    riskFactors :=
      [("config_file", config_file), ("sensitive_file", sensitive_file),
       ("frequency", frequency)] }

/-- The `file_delete` entry of `SmartDetector.actionDefs`. -/
def file_delete_def : ActionDef :=
  { patterns :=
    [ ⟨"(?:Deleting|Removing)\\s+(?:file\\s+)?[\x27\"]?([^\\s\x27\"]+)", 95/100⟩
    , ⟨"rm\\s+(?:-[rf]+\\s+)?([^\\s;|&]+)", 9/10⟩
    , ⟨"unlink\\s*\\(\\s*[\x27\"]([^\x27\"]+)", 9/10⟩
    , ⟨"fs\\.(?:unlink|rm)(?:Sync)?\\s*\\(\\s*[\x27\"]([^\x27\"]+)", 95/100⟩ ]
    baseRisk := 7/10
    riskFactors :=
      [("recursive", recursive), ("force", force),
       ("glob_pattern", glob_pattern), ("important_file", important_file)] }

/-- The `terminal_command` entry of `SmartDetector.actionDefs`. -/
def terminal_command_def : ActionDef :=
  { patterns :=
    [ ⟨"(?:Running|Executing)\\s+(?:command)?[:\\s]+[\x27\"]?(.+?)[\x27\"]?\\s*$", 9/10⟩
    , ⟨"\\$\\s+(.+)", 7/10⟩
    , ⟨"bash[:\\s]+(.+)", 85/100⟩
    , ⟨"exec(?:Sync)?\\s*\\(\\s*[\x27\"]([^\x27\"]+)", 9/10⟩ ]
    baseRisk := 4/10
    riskFactors :=
      [("sudo", sudo_cmd), ("pipe_to_shell", pipe_to_shell),
       ("curl_pipe", curl_pipe), ("network", network),
       ("destructive", destructive)] }

/-- The `npm_install` entry of `SmartDetector.actionDefs`. -/
def npm_install_def : ActionDef :=
  { patterns :=
    [ ⟨"npm\\s+(?:install|i|add)\\s+([^\\s;|&]+)", 95/100⟩
    , ⟨"yarn\\s+add\\s+([^\\s;|&]+)", 95/100⟩
    , ⟨"pnpm\\s+(?:add|install)\\s+([^\\s;|&]+)", 95/100⟩ ]
    baseRisk := 3/10
    riskFactors :=
      [("global", global), ("unknown_package", unknown_package),
       ("dev_only", dev_only)] }

/-- The `git_commit` entry of `SmartDetector.actionDefs`. -/
def git_commit_def : ActionDef :=
  { patterns :=
    [ ⟨"git\\s+commit\\s+(?:-[am]+\\s+)?[\x27\"]?([^\x27\"]+)", 95/100⟩
    , ⟨"Commit(?:ting)?[:\\s]+[\x27\"]?([^\x27\"]+)", 8/10⟩ ]
    baseRisk := 2/10
    riskFactors := [("empty_message", empty_message), ("amend", amend)] }

/-- The `git_push` entry of `SmartDetector.actionDefs`. -/
def git_push_def : ActionDef :=
  { patterns :=
    [ ⟨"git\\s+push(?:\\s+([^\\s;|&]+))?", 95/100⟩
    , ⟨"Push(?:ing)?\\s+to\\s+(\\w+)", 85/100⟩ ]
    baseRisk := 6/10
    riskFactors :=
      [("force", force_push), ("main_branch", main_branch),
       ("all", all_refs)] }

/-- The `database_operation` entry of `SmartDetector.actionDefs`. -/
def database_operation_def : ActionDef :=
  { patterns :=
    [ ⟨"(?:migrate|migration)\\s+(?:run|up|down)", 95/100⟩
    , ⟨"prisma\\s+(?:migrate|db\\s+push)", 95/100⟩
    , ⟨"supabase\\s+(?:db|migration)", 95/100⟩
    , ⟨"DROP\\s+(?:TABLE|DATABASE|INDEX)", 99/100⟩
    , ⟨"TRUNCATE\\s+", 95/100⟩
    , ⟨"DELETE\\s+FROM\\s+\\w+(?!\\s+WHERE)", 9/10⟩ ]
    baseRisk := 8/10
    riskFactors :=
      [("drop", drop), ("truncate", truncate), ("production", production)] }

/-- The `env_modification` entry of `SmartDetector.actionDefs`. -/
def env_modification_def : ActionDef :=
  { patterns :=
    [ ⟨"(?:edit|modify|create|update).*\\.env", 95/100⟩
    , ⟨"export\\s+(\\w+)=", 7/10⟩
    , ⟨"process\\.env\\.(\\w+)\\s*=", 9/10⟩ ]
    baseRisk := 7/10
    riskFactors := [("secret_key", secret_key), ("api_key", api_key)] }

/-- The `approval_prompt` entry of `SmartDetector.actionDefs`. -/
def approval_prompt_def : ActionDef :=
  { patterns :=
    [ ⟨"Do you want to (?:proceed|continue)\\??", 95/100⟩
    , ⟨"\\[Y\\/n\\]", 9/10⟩
    , ⟨"Press (?:y|enter) to continue", 9/10⟩
    , ⟨"Approve\\?", 95/100⟩
    , ⟨"Are you sure\\?", 85/100⟩ ]
    baseRisk := 5/10
    riskFactors := [] }

/-- `SmartDetector.actionDefs`, in declaration order (`Object.entries`
enumerates the string keys of the object literal in insertion order). -/
def actionDefs : List (ActionType × ActionDef) :=
  [ (ActionType.file_create, file_create_def)
  , (ActionType.file_edit, file_edit_def)
  , (ActionType.file_delete, file_delete_def)
  , (ActionType.terminal_command, terminal_command_def)
  , (ActionType.npm_install, npm_install_def)
  , (ActionType.git_commit, git_commit_def)
  , (ActionType.git_push, git_push_def)
  , (ActionType.database_operation, database_operation_def)
  , (ActionType.env_modification, env_modification_def)
  , (ActionType.approval_prompt, approval_prompt_def) ]

/-- One entry of `SmartDetector.dangerousPatterns`. -/
structure DangerPattern where
  rx : String
  severity : Severity
  reason : String
deriving DecidableEq

/-- `SmartDetector.dangerousPatterns`, in declaration order (braces of the
fork-bomb literal written `\x7b` / `\x7d`). -/
def dangerousPatterns : List DangerPattern :=
  [ ⟨"rm\\s+-rf\\s+\\/(?!\\s|$)", Severity.critical, "Recursive delete from root"⟩
  , ⟨">\\s*\\/dev\\/sd[a-z]", Severity.critical, "Direct disk write"⟩
  , ⟨"mkfs\\.", Severity.critical, "Filesystem format"⟩
  , ⟨"dd\\s+.*of=\\/dev", Severity.critical, "Direct disk write"⟩
  , ⟨":()\x7b :|:& \x7d;:", Severity.critical, "Fork bomb"⟩
  , ⟨"chmod\\s+777\\s+\\/", Severity.high, "Insecure root permissions"⟩
  , ⟨"curl.*\\|\\s*sudo", Severity.high, "Piping to sudo"⟩
  , ⟨"eval\\s*\\(\\s*\\$\x7b?[A-Z_]+", Severity.high, "Eval with env variable"⟩
  , ⟨"base64\\s+-d.*\\|\\s*(?:bash|sh)", Severity.high, "Base64 decode to shell"⟩ ]

/-! ## The regex oracle and `detect` -/

/-- The result of `text.match(regex)` when it is not null: `whole` is
`match[0]`, `group1` is `match[1]` (`none` when the regex has no capture
group or the group did not participate). -/
structure MatchRes where
  whole : String
  group1 : Option String
deriving DecidableEq

/-- The outcome of the JavaScript regex engine on the scanned text: for
each regex source literal of the tables above, the result of
`text.match(...)`.  `detect` is verified for every oracle, hence for every
text. -/
structure RegexOracle where
  rmatch : String → Option MatchRes

/-- One entry of the `found` list built by `checkDangerous`
(the source field `match` is a reserved word in Lean, hence `mtext`). -/
structure Danger where
  mtext : String
  severity : Severity
  reason : String
deriving DecidableEq

/-- `SmartDetector.checkDangerous`: scan the fixed dangerous patterns in
order and collect every match. -/
def checkDangerous (o : RegexOracle) : List Danger :=
  dangerousPatterns.filterMap fun dp =>
    (o.rmatch dp.rx).map fun res =>
      { mtext := res.whole, severity := dp.severity, reason := dp.reason }

/-- `SmartDetector.calculateRisk`.  `def.baseRisk || 0.5` defaults a falsy
(zero/absent) base risk to 0.5.  The `try`/`catch` around each factor is
dead in this table — no factor body throws (the `async` one returns a
Promise instead of throwing) — so every factor contributes its value. -/
def calculateRisk (d : ActionDef) (ctx : FactorCtx) : JSNum :=
  let base : ℚ := if d.baseRisk = 0 then 1/2 else d.baseRisk
  jsMax (JSNum.num 0)
    (jsMin (JSNum.num 1)
      ((d.riskFactors.map (fun f => f.2 ctx)).foldl jsAddFactor (JSNum.num base)))

/-- An element of the `results` list of `detect` (also the shape of the
action object it returns).  The `timestamp` field is not modelled; the
optional `reason` is present exactly on dangerous candidates. -/
structure Candidate where
  type : ActionType
  target : String
  confidence : ℚ
  riskScore : JSNum
  riskLevel : RiskLevel
  reason : Option String
  raw : String
deriving DecidableEq

/-- The state the detector reads and writes: `this.history`,
`this.fileStats`, `this.commandStats`, plus the ambient
`process.env.NODE_ENV === "production"` flag read by one factor. -/
structure DetectorState where
  history : List Candidate
  fileStats : List (String × FileStat)
  commandStats : List (String × ℕ)
  prodEnv : Bool

/-- The candidates pushed by the inner pattern loop of `detect` for one
action type: every matching pattern contributes one entry (the loop has no
break), with `target = match[1] || ""`. -/
def typeCandidates (o : RegexOracle) (text : String) (st : DetectorState)
    (t : ActionType) (d : ActionDef) : List Candidate :=
  d.patterns.filterMap fun p =>
    (o.rmatch p.rx).map fun res =>
      let target := (res.group1).getD ""
      let rs := calculateRisk d ⟨target, text, st.fileStats, st.prodEnv⟩
      { type := t, target := target, confidence := p.confidence,
        riskScore := rs, riskLevel := riskLevel rs, reason := none,
        raw := res.whole }

/-- The candidate appended for one element of `checkDangerous`: confidence
1.0, score 1.0 for critical severity and 0.9 otherwise, level always
`critical`. -/
def dangerCandidate (d : Danger) : Candidate :=
  { type := ActionType.dangerous_command, target := d.mtext, confidence := 1,
    riskScore := JSNum.num (if d.severity = Severity.critical then 1 else 9/10),
    riskLevel := RiskLevel.critical, reason := some d.reason, raw := d.mtext }

/-- The full `results` list of `detect`, in push order: per-type candidates
(types in declaration order, patterns in list order), then the dangerous
candidates. -/
def resultsList (o : RegexOracle) (text : String) (st : DetectorState) :
    List Candidate :=
  (actionDefs.flatMap fun td => typeCandidates o text st td.1 td.2)
    ++ (checkDangerous o).map dangerCandidate

/-- The comparison step of the selection: keep the current best unless the
next candidate has strictly greater confidence. -/
def pickBetter (best x : Candidate) : Candidate :=
  if best.confidence < x.confidence then x else best

/-- The net effect of `results.sort((a, b) => b.confidence - a.confidence)`
followed by `results[0]`: `Array.prototype.sort` is stable (ES2019), so
the element at index 0 is the earliest element of maximal confidence. -/
def selectBest : List Candidate → Option Candidate
  | [] => none
  | c :: cs => some (cs.foldl pickBetter c)

/-- `SmartDetector.detect`, as a function of the regex oracle of the
scanned text: the returned action, or `none` when nothing matched. -/
def detect (o : RegexOracle) (text : String) (st : DetectorState) :
    Option Candidate :=
  selectBest (resultsList o text st)

/-- `SmartDetector.recordAction`: append to the history, update the
per-file and per-command counters, then trim the history to the last 1000
entries (`history.slice(-1000)`). -/
def recordAction (st : DetectorState) (action : Candidate) : DetectorState :=
  let history := st.history ++ [action]
  let fileStats :=
    if action.target != "" && strStartsWith (actionTypeName action.type) "file_" then
      let stats := (mapGet st.fileStats action.target).getD ⟨0, 0, 0⟩
      let stats : FileStat :=
        { creates := if action.type = ActionType.file_create then stats.creates + 1 else stats.creates
          edits := if action.type = ActionType.file_edit then stats.edits + 1 else stats.edits
          deletes := if action.type = ActionType.file_delete then stats.deletes + 1 else stats.deletes }
      mapSet st.fileStats action.target stats
    else st.fileStats
  let commandStats :=
    if action.type = ActionType.terminal_command then
      let cmd := String.mk ((splitOnChar ' ' action.target.toList).headD [])
      mapSet st.commandStats cmd ((mapGet st.commandStats cmd).getD 0 + 1)
    else st.commandStats
  let history :=
    if history.length > 1000 then history.drop (history.length - 1000) else history
  { history := history, fileStats := fileStats, commandStats := commandStats,
    prodEnv := st.prodEnv }

/-- `detect` together with its side effect: the selected candidate (when
any) is passed to `recordAction`. -/
def detectStep (o : RegexOracle) (text : String) (st : DetectorState) :
    DetectorState × Option Candidate :=
  match detect o text st with
  | some a => (recordAction st a, some a)
  | none => (st, none)

/-- The fields of the `getInsights` result that claims refer to.  The
`mostEdited` / `mostUsedCommands` top-ten views are not modelled: no claim
mentions them. -/
structure Insights where
  totalActions : ℕ
  byType : ActionType → ℕ
  byRisk : RiskLevel → ℕ
  averageRisk : JSNum

/-- `SmartDetector.getInsights`: histograms over the recorded history and
the guarded average risk (`history.length > 0 ? sum / length : 0`). -/
def getInsights (st : DetectorState) : Insights :=
  { totalActions := st.history.length
    byType := fun t => (st.history.filter (fun a => decide (a.type = t))).length
    byRisk := fun l => (st.history.filter (fun a => decide (a.riskLevel = l))).length
    averageRisk :=
      if st.history.length > 0 then
        jsDiv (st.history.foldl (fun s a => jsAdd s a.riskScore) (JSNum.num 0))
          st.history.length
      else JSNum.num 0 }

/-! ## Rule configuration and `shouldAutoAccept` -/

/-- The `stop_on` section of the configuration (`error_count` is read with
optional chaining in v2, hence optional). -/
structure StopOn where
  error_count : Option ℕ
  unknown_action : Bool

/-- One per-mode section of the configuration (for example
`config.autopilot`): the three rule lists, the quick-confirm timeout and —
in the `autopilot` section — the stop conditions.  `none` models an absent
(`undefined`) field. -/
structure ModeConfig where
  auto_accept : Option (List ActionType)
  require_approval : Option (List ActionType)
  quick_confirm : Option (List ActionType)
  timeout_seconds : Option ℚ
  stop_on : StopOn

/-- The whole configuration object: the active mode name and the per-mode
sections (`config[config.mode]` is `modeOf mode`). -/
structure Config where
  mode : String
  modeOf : String → ModeConfig

/-- `list?.includes(t)`: `undefined` short-circuits to a falsy value. -/
def optIncludes (l : Option (List ActionType)) (t : ActionType) : Bool :=
  match l with
  | none => false
  | some xs => xs.contains t

/-- `modeConfig.timeout_seconds || 2`: absent or falsy (zero) defaults. -/
def timeoutOrDefault (o : Option ℚ) : ℚ :=
  match o with
  | none => 2
  | some q => if q = 0 then 2 else q

/-- The `accept` field of a recommendation: `true`, `false` or the string
`"quick_confirm"`. -/
inductive AcceptVal where
  | yes
  | no
  | quickConfirm
deriving DecidableEq

/-- The `reason` strings of `shouldAutoAccept`; the two interpolated ones
carry the numeric score they embed (`...toFixed(2)`). -/
inductive Reason where
  | criticalRisk
  | requiresApproval
  | highRiskScore (score : JSNum)
  | autoAccepted
  | quickConfirmation
  | riskScoreDefault (score : JSNum)
deriving DecidableEq

/-- The object returned by `shouldAutoAccept`; `confidence` and `timeout`
are each present only on some branches. -/
structure Recommendation where
  accept : AcceptVal
  reason : Reason
  confidence : Option JSNum
  timeout : Option ℚ
deriving DecidableEq

/-- `SmartDetector.shouldAutoAccept` (the policy engine), branch for
branch from the source. -/
def shouldAutoAccept (action : Candidate) (config : Config) : Recommendation :=
  let modeConfig := config.modeOf config.mode
  if action.type = ActionType.dangerous_command ∨ action.riskLevel = RiskLevel.critical then
    { accept := AcceptVal.no, reason := Reason.criticalRisk,
      confidence := some (JSNum.num 1), timeout := none }
  else if optIncludes modeConfig.require_approval action.type then
    { accept := AcceptVal.no, reason := Reason.requiresApproval,
      confidence := some (JSNum.num (9/10)), timeout := none }
  else if optIncludes modeConfig.auto_accept action.type then
    if jsGtQ action.riskScore (7/10) then
      { accept := AcceptVal.no, reason := Reason.highRiskScore action.riskScore,
        confidence := some action.riskScore, timeout := none }
    else
      { accept := AcceptVal.yes, reason := Reason.autoAccepted,
        confidence := some (JSNum.num (9/10)), timeout := none }
  else if optIncludes modeConfig.quick_confirm action.type then
    { accept := AcceptVal.quickConfirm, reason := Reason.quickConfirmation,
      confidence := none, timeout := some (timeoutOrDefault modeConfig.timeout_seconds) }
  else
    { accept := if jsLtQ action.riskScore (1/2) then AcceptVal.yes else AcceptVal.no,
      reason := Reason.riskScoreDefault action.riskScore,
      confidence := some (jsOneMinus action.riskScore), timeout := none }

/-! ## The orchestrators (supervisor v2 and legacy v1) -/

/-- `SupervisorV2.sessionStats` (the `started` timestamp is not
modelled). -/
structure SessionStats where
  tasksCompleted : ℕ
  tasksFailed : ℕ
  actionsApproved : ℕ
  actionsDenied : ℕ
  errors : ℕ
  filesChanged : ℕ
deriving DecidableEq

/-- The terminal event of a spawned process: `close` with an exit code, or
a process-level `error`. -/
inductive ProcEvent where
  | closed (code : ℤ)
  | errored
deriving DecidableEq

/-- How the promise returned by `runSingle` settles. -/
inductive PromiseResult where
  | resolved (code : ℤ)
  | rejected
deriving DecidableEq

/-- `SupervisorV2.runSingle` at its terminal event: the `close` handler
resolves for every exit code and bumps `tasksCompleted` and
`filesChanged`; the `error` handler bumps `errors` and `tasksFailed` and
rejects. -/
def runSingleV2 (st : SessionStats) (ev : ProcEvent) :
    SessionStats × PromiseResult :=
  match ev with
  | ProcEvent.closed code =>
      ({ st with tasksCompleted := st.tasksCompleted + 1,
                 filesChanged := st.filesChanged + 1 },
       PromiseResult.resolved code)
  | ProcEvent.errored =>
      ({ st with errors := st.errors + 1, tasksFailed := st.tasksFailed + 1 },
       PromiseResult.rejected)

/-- The status a task ends up with after its run. -/
inductive TaskStatus where
  | pending
  | complete
  | failed
deriving DecidableEq

/-- The body of the per-task loop of `SupervisorV2.runQueue`: await
`runSingle`; on resolution bump `tasksCompleted` (again) and mark the task
complete (`taskQueue.markComplete`), on rejection bump `errors` and
`tasksFailed` and report the task as failed (`dashboard.taskFailed`). -/
def runQueueStepV2 (st : SessionStats) (ev : ProcEvent) :
    SessionStats × TaskStatus :=
  match runSingleV2 st ev with
  | (st2, PromiseResult.resolved _) =>
      ({ st2 with tasksCompleted := st2.tasksCompleted + 1 }, TaskStatus.complete)
  | (st2, PromiseResult.rejected) =>
      ({ st2 with errors := st2.errors + 1, tasksFailed := st2.tasksFailed + 1 },
       TaskStatus.failed)

/-- Legacy v1 `Supervisor.runSingle` at its terminal event: resolve only
on exit code 0, reject on a nonzero code or a process error (the handlers
touch no counters). -/
def runSingleV1 (ev : ProcEvent) : PromiseResult :=
  match ev with
  | ProcEvent.closed code =>
      if code = 0 then PromiseResult.resolved code else PromiseResult.rejected
  | ProcEvent.errored => PromiseResult.rejected

/-- The body of the per-task loop of the v1 `runQueue`: on resolution bump
`tasksCompleted` and mark complete; the `catch` bumps `errors` (v1 has no
`tasksFailed` counter) and the task is treated as failed. -/
def runQueueStepV1 (st : SessionStats) (ev : ProcEvent) :
    SessionStats × TaskStatus :=
  match runSingleV1 ev with
  | PromiseResult.resolved _ =>
      ({ st with tasksCompleted := st.tasksCompleted + 1 }, TaskStatus.complete)
  | PromiseResult.rejected =>
      ({ st with errors := st.errors + 1 }, TaskStatus.failed)

/-- The value returned by an action handler. -/
inductive HandleResult where
  | accept
  | pause
  | deny
  | stop
deriving DecidableEq

/-- `SupervisorV2.handleAction` (decision value only; logging,
notifications and counter bumps are I/O side effects no claim refers to).
The final `return "accept"` of the source is unreachable because
`recommendation.accept` is always one of the three modelled values. -/
def handleActionV2 (action : Candidate) (config : Config) : HandleResult :=
  let recommendation := shouldAutoAccept action config
  if action.riskLevel = RiskLevel.critical ∨ action.type = ActionType.dangerous_command then
    HandleResult.deny
  else if recommendation.accept = AcceptVal.yes then HandleResult.accept
  else if recommendation.accept = AcceptVal.quickConfirm then HandleResult.accept
  else if recommendation.accept = AcceptVal.no then HandleResult.pause
  else HandleResult.accept

/-- Legacy v1 `Supervisor.handleAction`: the three rule lists in order,
then the unknown-action stop condition
(`config.autopilot.stop_on.unknown_action && mode === "autopilot"`). -/
def handleActionV1 (action : Candidate) (config : Config) : HandleResult :=
  let modeConfig := config.modeOf config.mode
  if optIncludes modeConfig.auto_accept action.type then HandleResult.accept
  else if optIncludes modeConfig.require_approval action.type then HandleResult.pause
  else if optIncludes modeConfig.quick_confirm action.type then HandleResult.accept
  else if (config.modeOf "autopilot").stop_on.unknown_action && config.mode = "autopilot" then
    HandleResult.stop
  else HandleResult.accept

/-! ## The approval coordinator (`setupDashboardEvents`) -/

/-- The approval-relevant state of the v2 supervisor: the
`pendingApprovals` map (an `actionId`-keyed JS `Map`, modelled as a
partial function to the pending entry's promise handle) and the list of
promise resolutions delivered so far (the observable effect of calling
`pending.resolve(verdict)`). -/
structure ApprovalState where
  pending : String → Option ℕ
  resolutions : List (ℕ × String)

/-- The dashboard `approve` / `deny` handler with verdict `verdict`:
look the id up; when present, resolve the stored promise and delete the
entry; when absent, do nothing. -/
def resolveApproval (verdict : String) (st : ApprovalState)
    (actionId : String) : ApprovalState :=
  match st.pending actionId with
  | some h =>
      { pending := fun k => if k = actionId then none else st.pending k,
        resolutions := st.resolutions ++ [(h, verdict)] }
  | none => st

/-! ## The classification algorithm as the claim states it

`detectClaimed` is modelled from the words of claim C4, for comparison
with `detect` (which is modelled from the source): each action type
contributes at most one candidate, determined by the first pattern in its
list that matches; dangerous matches contribute `dangerous_command`
candidates; the highest confidence wins, ties in favour of the earliest
declared type. -/
def detectClaimed (o : RegexOracle) (text : String) (st : DetectorState) :
    Option Candidate :=
  selectBest
    ((actionDefs.filterMap fun td => (typeCandidates o text st td.1 td.2).head?)
      ++ (checkDangerous o).map dangerCandidate)

/-! ## Lemmas about the selection step -/

/-- An empty detector (`new SmartDetector()` with a non-production
environment). -/
def initialState : DetectorState :=
  { history := [], fileStats := [], commandStats := [], prodEnv := false }

lemma pickBetter_of_lt (b x : Candidate) (h : b.confidence < x.confidence) :
    pickBetter b x = x := by
  unfold pickBetter; rw [if_pos h]

lemma pickBetter_of_not_lt (b x : Candidate) (h : ¬ b.confidence < x.confidence) :
    pickBetter b x = b := by
  unfold pickBetter; rw [if_neg h]

lemma pickBetter_eq_or (b x : Candidate) :
    pickBetter b x = b ∨ pickBetter b x = x := by
  by_cases h : b.confidence < x.confidence
  · exact Or.inr (pickBetter_of_lt b x h)
  · exact Or.inl (pickBetter_of_not_lt b x h)

lemma foldl_pickBetter_conf_lt (l : List Candidate) (c : Candidate) (q : ℚ)
    (hc : c.confidence < q) (hl : ∀ x ∈ l, x.confidence < q) :
    (l.foldl pickBetter c).confidence < q := by
  induction l generalizing c with
  | nil => exact hc
  | cons x xs ih =>
      simp only [List.foldl_cons]
      refine ih (pickBetter c x) ?_ (fun y hy => hl y (by simp [hy]))
      rcases pickBetter_eq_or c x with h | h <;> rw [h]
      · exact hc
      · exact hl x (by simp)

lemma foldl_pickBetter_keep (l : List Candidate) (d : Candidate)
    (hl : ∀ x ∈ l, x.confidence ≤ d.confidence) :
    l.foldl pickBetter d = d := by
  induction l with
  | nil => rfl
  | cons x xs ih =>
      have hx : ¬ d.confidence < x.confidence := not_lt.mpr (hl x (by simp))
      simp only [List.foldl_cons]
      rw [pickBetter_of_not_lt d x hx]
      exact ih (fun y hy => hl y (by simp [hy]))

lemma selectBest_append (l1 : List Candidate) (d : Candidate) (l2 : List Candidate)
    (h1 : ∀ x ∈ l1, x.confidence < d.confidence)
    (h2 : ∀ x ∈ l2, x.confidence ≤ d.confidence) :
    selectBest (l1 ++ d :: l2) = some d := by
  cases l1 with
  | nil =>
      simp only [List.nil_append, selectBest, List.foldl_cons]
      rw [foldl_pickBetter_keep l2 d h2]
  | cons c cs =>
      simp only [List.cons_append, selectBest, List.foldl_append, List.foldl_cons]
      have hb : (cs.foldl pickBetter c).confidence < d.confidence :=
        foldl_pickBetter_conf_lt cs c d.confidence (h1 c (by simp))
          (fun x hx => h1 x (by simp [hx]))
      rw [pickBetter_of_lt _ d hb]
      rw [foldl_pickBetter_keep l2 d h2]

/-- Every confidence in the pattern tables is at most 0.99. -/
lemma table_confidence_le :
    ∀ c ∈ actionDefs.flatMap (fun td => td.2.patterns.map PatternDef.confidence),
      c ≤ 99/100 := by
  intro c hc
  fin_cases hc <;> norm_num

/-- Every candidate produced from the action-definition tables has
confidence strictly below the 1.0 of a dangerous candidate. -/
lemma table_candidate_conf_lt (o : RegexOracle) (text : String)
    (st : DetectorState) :
    ∀ x ∈ actionDefs.flatMap (fun td => typeCandidates o text st td.1 td.2),
      x.confidence < 1 := by
  intro x hx
  rw [List.mem_flatMap] at hx
  obtain ⟨td, htd, hxin⟩ := hx
  unfold typeCandidates at hxin
  rw [List.mem_filterMap] at hxin
  obtain ⟨p, hp, hmk⟩ := hxin
  rw [Option.map_eq_some'] at hmk
  obtain ⟨res, _, hres⟩ := hmk
  have hc : x.confidence = p.confidence := by rw [← hres]
  rw [hc]
  have hmem : p.confidence ∈
      actionDefs.flatMap (fun td => td.2.patterns.map PatternDef.confidence) :=
    List.mem_flatMap.mpr ⟨td, htd, List.mem_map_of_mem _ hp⟩
  exact lt_of_le_of_lt (table_confidence_le _ hmem) (by norm_num)

/-! ## C1 — the clamping claim and the `npm_install` Promise bug -/

/-- Oracle of the text `npm install lodash`: only the first `npm_install`
pattern matches, capturing the package name. -/
def oNpmW : RegexOracle :=
  ⟨fun rx =>
    if rx = "npm\\s+(?:install|i|add)\\s+([^\\s;|&]+)" then
      some { whole := "npm install lodash", group1 := some "lodash" }
    else none⟩

/-- Claim C1: the claim says every risk score lies in [0,1] after clamping.  It
fails for `npm_install`: the `unknown_package` factor is `async`, so
`risk += factorRisk` adds a Promise, which turns the accumulator into a
non-numeric string; `Math.min`/`Math.max` then return NaN, and the clamp
never produces a number in [0,1].  Every `npm_install` risk score — and
hence the `riskScore` of the detect result for `npm install lodash` — is
NaN. -/
theorem npm_install_score_not_clamped :
    (∀ ctx : FactorCtx, calculateRisk npm_install_def ctx = JSNum.nan) ∧
    (detect oNpmW "npm install lodash" initialState).map Candidate.riskScore =
      some JSNum.nan := by
  constructor
  · intro ctx
    simp [calculateRisk, npm_install_def, global, unknown_package, dev_only,
      jsAddFactor, jsMin, jsMax]
  · simp [detect, resultsList, typeCandidates, checkDangerous, selectBest,
      oNpmW, actionDefs, file_create_def, file_edit_def, file_delete_def,
      terminal_command_def, npm_install_def, git_commit_def, git_push_def,
      database_operation_def, env_modification_def, approval_prompt_def,
      dangerousPatterns, dangerCandidate, calculateRisk, jsAddFactor, jsMin,
      jsMax, global, unknown_package, dev_only, pickBetter, initialState]

/-! ## C2 — dangerous patterns always win and are always denied -/

/-- Claim C2: whenever at least one dangerous pattern matches the text, `detect`
returns the candidate of the first matching dangerous pattern: type
`dangerous_command`, level `critical`, score 1.0 for critical severity and
0.9 otherwise — and `shouldAutoAccept` denies it under every rule
configuration (including ones whose `auto_accept` list contains
`dangerous_command`), because the critical-risk branch fires first. -/
theorem dangerous_match_denied (o : RegexOracle) (text : String)
    (st : DetectorState) (config : Config)
    (hmatch : checkDangerous o ≠ []) :
    ∃ d : Danger, (checkDangerous o).head? = some d ∧
      detect o text st = some (dangerCandidate d) ∧
      (dangerCandidate d).type = ActionType.dangerous_command ∧
      (dangerCandidate d).riskLevel = RiskLevel.critical ∧
      (dangerCandidate d).riskScore =
        JSNum.num (if d.severity = Severity.critical then 1 else 9/10) ∧
      shouldAutoAccept (dangerCandidate d) config =
        { accept := AcceptVal.no, reason := Reason.criticalRisk,
          confidence := some (JSNum.num 1), timeout := none } := by
  obtain ⟨d, ds, hcd⟩ := List.exists_cons_of_ne_nil hmatch
  refine ⟨d, by rw [hcd]; rfl, ?_, rfl, rfl, rfl, ?_⟩
  · unfold detect resultsList
    rw [hcd, List.map_cons]
    refine selectBest_append _ _ _ (fun x hx => ?_) (fun x hx => ?_)
    · exact table_candidate_conf_lt o text st x hx
    · rw [List.mem_map] at hx
      obtain ⟨d2, _, rfl⟩ := hx
      exact le_refl _
  · simp [shouldAutoAccept, dangerCandidate]

/-- Rule configuration for the C2 witness, with `dangerous_command` on the
`auto_accept` list. -/
def configW : Config :=
  { mode := "autopilot",
    modeOf := fun _ =>
      { auto_accept := some [ActionType.dangerous_command],
        require_approval := none,
        quick_confirm := none,
        timeout_seconds := none,
        stop_on := { error_count := some 3, unknown_action := false } } }

/-- Oracle of the text `rm -rf /important`: the first dangerous pattern
matches with `match[0]` equal to `rm -rf /` (the trailing lookahead is
zero-width), and the `rm` pattern of `file_delete` matches capturing
`/important`. -/
def oDangerW : RegexOracle :=
  ⟨fun rx =>
    if rx = "rm\\s+-rf\\s+\\/(?!\\s|$)" then
      some { whole := "rm -rf /", group1 := none }
    else if rx = "rm\\s+(?:-[rf]+\\s+)?([^\\s;|&]+)" then
      some { whole := "rm -rf /important", group1 := some "/important" }
    else none⟩

theorem dangerous_match_denied_witness :
    checkDangerous oDangerW ≠ [] ∧
    (∃ d : Danger, (checkDangerous oDangerW).head? = some d ∧
      detect oDangerW "rm -rf /important" initialState = some (dangerCandidate d) ∧
      (dangerCandidate d).type = ActionType.dangerous_command ∧
      (dangerCandidate d).riskLevel = RiskLevel.critical ∧
      (dangerCandidate d).riskScore =
        JSNum.num (if d.severity = Severity.critical then 1 else 9/10) ∧
      shouldAutoAccept (dangerCandidate d) configW =
        { accept := AcceptVal.no, reason := Reason.criticalRisk,
          confidence := some (JSNum.num 1), timeout := none }) :=
  ⟨by simp [checkDangerous, oDangerW, dangerousPatterns],
   dangerous_match_denied oDangerW "rm -rf /important" initialState configW
     (by simp [checkDangerous, oDangerW, dangerousPatterns])⟩

/-! ## C3 — exit-code handling of the orchestrator -/

/-- The all-zero session statistics of a fresh supervisor. -/
def initialStats : SessionStats :=
  { tasksCompleted := 0, tasksFailed := 0, actionsApproved := 0,
    actionsDenied := 0, errors := 0, filesChanged := 0 }

/-- Claim C3 (code bug): the claim says a nonzero exit code marks the task
failed and bumps the error counter.  In the operative v2 supervisor the
`close` handler resolves for every exit code, so exit code 1 marks the
task complete, bumps `tasksCompleted` twice (once in `runSingle`, once in
`runQueue`) and leaves `errors` and `tasksFailed` at 0.  The legacy v1
supervisor implements the claimed behaviour: nonzero exit rejects and the
`catch` bumps `errors`. -/
theorem nonzero_exit_marked_complete :
    runQueueStepV2 initialStats (ProcEvent.closed 1) =
      ({ tasksCompleted := 2, tasksFailed := 0, actionsApproved := 0,
         actionsDenied := 0, errors := 0, filesChanged := 1 },
       TaskStatus.complete) ∧
    runSingleV1 (ProcEvent.closed 1) = PromiseResult.rejected ∧
    runQueueStepV1 initialStats (ProcEvent.closed 1) =
      ({ tasksCompleted := 0, tasksFailed := 0, actionsApproved := 0,
         actionsDenied := 0, errors := 1, filesChanged := 0 },
       TaskStatus.failed) :=
  ⟨rfl, rfl, rfl⟩

/-! ## C5 — the unknown-action stop condition -/

/-- Autopilot configuration with `stop_on.unknown_action` enabled and no
action type on any rule list. -/
def unknownStopConfig : Config :=
  { mode := "autopilot",
    modeOf := fun _ =>
      { auto_accept := some [],
        require_approval := some [],
        quick_confirm := some [],
        timeout_seconds := none,
        stop_on := { error_count := some 3, unknown_action := true } } }

/-- A classified `git_push` action that is on no rule list and is not
critical. -/
def gitPushAction : Candidate :=
  { type := ActionType.git_push, target := "origin", confidence := 95/100,
    riskScore := JSNum.num (6/10), riskLevel := RiskLevel.high,
    reason := none, raw := "git push origin" }

/-- Claim C5 (code bug): the claim says that in autopilot mode with
`stop_on.unknown_action` enabled, an action matching no rule list yields a
session-level stop.  The operative v2 `handleAction` has no stop branch at
all: for this action it falls through to the risk-based default
(0.6 ≥ 0.5, so `accept: false`) and returns `pause`, never `stop`.  The
legacy v1 `handleAction` — from which the claim was written — does return
`stop` on the same input. -/
theorem v2_unknown_action_not_stopped :
    handleActionV2 gitPushAction unknownStopConfig = HandleResult.pause ∧
    handleActionV2 gitPushAction unknownStopConfig ≠ HandleResult.stop ∧
    handleActionV1 gitPushAction unknownStopConfig = HandleResult.stop := by
  have h2 : handleActionV2 gitPushAction unknownStopConfig = HandleResult.pause := by
    norm_num [handleActionV2, shouldAutoAccept, gitPushAction,
      unknownStopConfig, optIncludes, jsLtQ, jsGtQ]
    decide
  refine ⟨h2, by rw [h2]; simp, ?_⟩
  simp [handleActionV1, gitPushAction, unknownStopConfig, optIncludes]

/-! ## C6 — the auto-accept risk override -/

/-- Claim C6: for an action on the `auto_accept` list that is neither dangerous
nor critical and not on the `require_approval` list, a risk score above
0.7 overrides the listing (non-accept, reason carrying the score,
confidence the score itself); otherwise the action is accepted with
reason `Action type auto-accepted` and confidence 0.9. -/
theorem auto_accept_risk_override (a : Candidate) (config : Config) (q : ℚ)
    (hq : a.riskScore = JSNum.num q)
    (hnd : a.type ≠ ActionType.dangerous_command)
    (hnc : a.riskLevel ≠ RiskLevel.critical)
    (hauto : optIncludes (config.modeOf config.mode).auto_accept a.type = true)
    (hreq : optIncludes (config.modeOf config.mode).require_approval a.type = false) :
    (q > 7/10 →
      shouldAutoAccept a config =
        { accept := AcceptVal.no, reason := Reason.highRiskScore (JSNum.num q),
          confidence := some (JSNum.num q), timeout := none }) ∧
    (q ≤ 7/10 →
      shouldAutoAccept a config =
        { accept := AcceptVal.yes, reason := Reason.autoAccepted,
          confidence := some (JSNum.num (9/10)), timeout := none }) := by
  simp only [shouldAutoAccept, hq]
  rw [if_neg (fun h => h.elim hnd hnc)]
  rw [if_neg (by simp [hreq])]
  rw [if_pos hauto]
  simp only [jsGtQ]
  constructor
  · intro h
    rw [if_pos (by simpa using h)]
  · intro h
    rw [if_neg (by simpa using not_lt.mpr h)]

/-- An action of a type on the `auto_accept` list whose risk score 0.75
exceeds the 0.7 gate. -/
def fileEditHighRisk : Candidate :=
  { type := ActionType.file_edit, target := ".env", confidence := 95/100,
    riskScore := JSNum.num (75/100), riskLevel := RiskLevel.high,
    reason := none, raw := "Editing .env" }

/-- Configuration whose autopilot section auto-accepts `file_edit`. -/
def autoAcceptConfig : Config :=
  { mode := "autopilot",
    modeOf := fun _ =>
      { auto_accept := some [ActionType.file_edit, ActionType.npm_install],
        require_approval := some [ActionType.git_push],
        quick_confirm := none,
        timeout_seconds := none,
        stop_on := { error_count := some 3, unknown_action := false } } }

theorem auto_accept_risk_override_witness :
    fileEditHighRisk.riskScore = JSNum.num (75/100) ∧
    fileEditHighRisk.type ≠ ActionType.dangerous_command ∧
    fileEditHighRisk.riskLevel ≠ RiskLevel.critical ∧
    optIncludes (autoAcceptConfig.modeOf autoAcceptConfig.mode).auto_accept
      fileEditHighRisk.type = true ∧
    optIncludes (autoAcceptConfig.modeOf autoAcceptConfig.mode).require_approval
      fileEditHighRisk.type = false ∧
    (((75:ℚ)/100 > 7/10 →
      shouldAutoAccept fileEditHighRisk autoAcceptConfig =
        { accept := AcceptVal.no,
          reason := Reason.highRiskScore (JSNum.num (75/100)),
          confidence := some (JSNum.num (75/100)), timeout := none }) ∧
     ((75:ℚ)/100 ≤ 7/10 →
      shouldAutoAccept fileEditHighRisk autoAcceptConfig =
        { accept := AcceptVal.yes, reason := Reason.autoAccepted,
          confidence := some (JSNum.num (9/10)), timeout := none })) :=
  ⟨rfl, by decide, by decide, by decide, by decide,
   auto_accept_risk_override fileEditHighRisk autoAcceptConfig (75/100)
     rfl (by decide) (by decide) (by decide) (by decide)⟩

/-! ## C7 — idempotent approval resolution -/

/-- A `resolve` on an id with no pending entry is a no-op. -/
lemma resolveApproval_noop (verdict : String) (st : ApprovalState)
    (actionId : String) (h : st.pending actionId = none) :
    resolveApproval verdict st actionId = st := by
  unfold resolveApproval
  rw [h]

/-- Claim C7: the first resolution of a pending approval id delivers exactly one
promise resolution and removes the entry; any later resolution of the
same id (same or different verdict) leaves the state untouched. -/
theorem approval_resolution_idempotent (st : ApprovalState)
    (actionId verdict verdict2 : String) (h : ℕ)
    (hp : st.pending actionId = some h) :
    (resolveApproval verdict st actionId).pending actionId = none ∧
    (resolveApproval verdict st actionId).resolutions =
      st.resolutions ++ [(h, verdict)] ∧
    resolveApproval verdict2 (resolveApproval verdict st actionId) actionId =
      resolveApproval verdict st actionId := by
  have hnone : (resolveApproval verdict st actionId).pending actionId = none := by
    unfold resolveApproval
    rw [hp]
    simp
  exact ⟨hnone, by unfold resolveApproval; rw [hp],
    resolveApproval_noop verdict2 _ actionId hnone⟩

/-- A supervisor state with one pending approval under id `action-1`. -/
def approvalStateW : ApprovalState :=
  { pending := fun k => if k = "action-1" then some 7 else none,
    resolutions := [] }

theorem approval_resolution_idempotent_witness :
    approvalStateW.pending "action-1" = some 7 ∧
    ((resolveApproval "approve" approvalStateW "action-1").pending "action-1" = none ∧
     (resolveApproval "approve" approvalStateW "action-1").resolutions =
       approvalStateW.resolutions ++ [(7, "approve")] ∧
     resolveApproval "deny" (resolveApproval "approve" approvalStateW "action-1")
         "action-1" =
       resolveApproval "approve" approvalStateW "action-1") :=
  ⟨by simp [approvalStateW],
   approval_resolution_idempotent approvalStateW "action-1" "approve" "deny" 7
     (by simp [approvalStateW])⟩

/-! ## C10 — the guarded average in `getInsights` -/

/-- Claim C10: with an empty recorded history the published `averageRisk` is the
literal 0 of the guard, not a division by zero. -/
theorem empty_history_average_risk_zero (st : DetectorState)
    (h : st.history = []) :
    (getInsights st).averageRisk = JSNum.num 0 := by
  simp [getInsights, h]

theorem empty_history_average_risk_zero_witness :
    initialState.history = [] ∧
    (getInsights initialState).averageRisk = JSNum.num 0 :=
  ⟨rfl, empty_history_average_risk_zero initialState rfl⟩

/-! ## C4 — the classification algorithm -/

/-- The text of the C4 counterexample. -/
def tFc : String := "fs.writeFileSync(\"a.txt\") > out.txt"

/-- Oracle of `tFc`: the third and fourth `file_create` patterns match it
(and no other pattern of the tables does). -/
def oFc : RegexOracle :=
  ⟨fun rx =>
    if rx = ">\\s*([^\\s;|&]+\\.\\w+)" then
      some { whole := "> out.txt", group1 := some "out.txt" }
    else if rx = "fs\\.writeFile(?:Sync)?\\s*\\(\\s*[\x27\"]([^\x27\"]+)" then
      some { whole := "fs.writeFileSync(\"a.txt", group1 := some "a.txt" }
    else none⟩

/-- The candidate of the third `file_create` pattern on `tFc`. -/
def candFc07 : Candidate :=
  { type := ActionType.file_create, target := "out.txt", confidence := 7/10,
    riskScore := calculateRisk file_create_def ⟨"out.txt", tFc, [], false⟩,
    riskLevel := riskLevel (calculateRisk file_create_def ⟨"out.txt", tFc, [], false⟩),
    reason := none, raw := "> out.txt" }

/-- The candidate of the fourth `file_create` pattern on `tFc`. -/
def candFc95 : Candidate :=
  { type := ActionType.file_create, target := "a.txt", confidence := 95/100,
    riskScore := calculateRisk file_create_def ⟨"a.txt", tFc, [], false⟩,
    riskLevel := riskLevel (calculateRisk file_create_def ⟨"a.txt", tFc, [], false⟩),
    reason := none, raw := "fs.writeFileSync(\"a.txt" }

lemma file_create_patterns_eq :
    file_create_def.patterns =
      [ ⟨"(?:Creating|Writing|Generating)\\s+(?:new\\s+)?file[:\\s]+[\x27\"]?([^\\s\x27\"]+)", 95/100⟩
      , ⟨"touch\\s+([^\\s;|&]+)", 9/10⟩
      , ⟨">\\s*([^\\s;|&]+\\.\\w+)", 7/10⟩
      , ⟨"fs\\.writeFile(?:Sync)?\\s*\\(\\s*[\x27\"]([^\x27\"]+)", 95/100⟩
      , ⟨"echo\\s+.*>\\s*([^\\s;|&]+)", 8/10⟩ ] := rfl

lemma typeCandidates_oFc_file_create :
    typeCandidates oFc tFc initialState ActionType.file_create file_create_def =
      [candFc07, candFc95] := by
  simp [typeCandidates, file_create_patterns_eq, oFc, List.filterMap_cons,
    initialState, candFc07, candFc95]

lemma typeCandidates_oFc_others :
    typeCandidates oFc tFc initialState ActionType.file_edit file_edit_def = [] ∧
    typeCandidates oFc tFc initialState ActionType.file_delete file_delete_def = [] ∧
    typeCandidates oFc tFc initialState ActionType.terminal_command terminal_command_def = [] ∧
    typeCandidates oFc tFc initialState ActionType.npm_install npm_install_def = [] ∧
    typeCandidates oFc tFc initialState ActionType.git_commit git_commit_def = [] ∧
    typeCandidates oFc tFc initialState ActionType.git_push git_push_def = [] ∧
    typeCandidates oFc tFc initialState ActionType.database_operation database_operation_def = [] ∧
    typeCandidates oFc tFc initialState ActionType.env_modification env_modification_def = [] ∧
    typeCandidates oFc tFc initialState ActionType.approval_prompt approval_prompt_def = [] := by
  refine ⟨?_, ?_, ?_, ?_, ?_, ?_, ?_, ?_, ?_⟩ <;>
    simp [typeCandidates, file_edit_def, file_delete_def, terminal_command_def,
      npm_install_def, git_commit_def, git_push_def, database_operation_def,
      env_modification_def, approval_prompt_def, oFc, List.filterMap_cons]

lemma checkDangerous_oFc : checkDangerous oFc = [] := by
  simp [checkDangerous, oFc, dangerousPatterns, List.filterMap_cons]

lemma resultsList_oFc :
    resultsList oFc tFc initialState = [candFc07, candFc95] := by
  simp [resultsList, actionDefs, List.flatMap_cons, List.flatMap_nil,
    typeCandidates_oFc_file_create, typeCandidates_oFc_others.1,
    typeCandidates_oFc_others.2.1, typeCandidates_oFc_others.2.2.1,
    typeCandidates_oFc_others.2.2.2.1, typeCandidates_oFc_others.2.2.2.2.1,
    typeCandidates_oFc_others.2.2.2.2.2.1,
    typeCandidates_oFc_others.2.2.2.2.2.2.1,
    typeCandidates_oFc_others.2.2.2.2.2.2.2.1,
    typeCandidates_oFc_others.2.2.2.2.2.2.2.2, checkDangerous_oFc]

lemma detect_oFc : detect oFc tFc initialState = some candFc95 := by
  rw [detect, resultsList_oFc]
  simp only [selectBest, List.foldl_cons, List.foldl_nil]
  rw [pickBetter_of_lt _ _ (by norm_num [candFc07, candFc95])]

lemma detectClaimed_oFc : detectClaimed oFc tFc initialState = some candFc07 := by
  unfold detectClaimed
  simp [actionDefs, List.filterMap_cons, typeCandidates_oFc_file_create,
    typeCandidates_oFc_others.1,
    typeCandidates_oFc_others.2.1, typeCandidates_oFc_others.2.2.1,
    typeCandidates_oFc_others.2.2.2.1, typeCandidates_oFc_others.2.2.2.2.1,
    typeCandidates_oFc_others.2.2.2.2.2.1,
    typeCandidates_oFc_others.2.2.2.2.2.2.1,
    typeCandidates_oFc_others.2.2.2.2.2.2.2.1,
    typeCandidates_oFc_others.2.2.2.2.2.2.2.2, checkDangerous_oFc, selectBest]

/-- Claim C4 counterexample: on the text `fs.writeFileSync("a.txt") > out.txt`
the claimed algorithm (first matching pattern determines a type's single
candidate) would return the confidence-0.7 candidate with target
`out.txt`, but `detect` has no per-type cut-off and returns the
confidence-0.95 candidate of the fourth pattern with target `a.txt`. -/
theorem detect_not_first_pattern_per_type :
    detect oFc tFc initialState = some candFc95 ∧
    candFc95.confidence = 95/100 ∧
    candFc95.target = "a.txt" ∧
    detectClaimed oFc tFc initialState = some candFc07 ∧
    candFc07.confidence = 7/10 ∧
    candFc07.target = "out.txt" ∧
    detect oFc tFc initialState ≠ detectClaimed oFc tFc initialState := by
  refine ⟨detect_oFc, rfl, rfl, detectClaimed_oFc, rfl, rfl, ?_⟩
  rw [detect_oFc, detectClaimed_oFc]
  simp [candFc07, candFc95, Candidate.mk.injEq]

/-- The foldl of `pickBetter` returns the earliest element of maximal
confidence of `c :: l`. -/
lemma foldl_pickBetter_spec (l : List Candidate) (c : Candidate) :
    (∀ b ∈ l, b.confidence ≤ (l.foldl pickBetter c).confidence) ∧
    c.confidence ≤ (l.foldl pickBetter c).confidence ∧
    ∃ pre post, c :: l = pre ++ (l.foldl pickBetter c) :: post ∧
      ∀ b ∈ pre, b.confidence < (l.foldl pickBetter c).confidence := by
  induction l generalizing c with
  | nil => exact ⟨by simp, le_refl _, [], [], rfl, by simp⟩
  | cons x xs ih =>
      simp only [List.foldl_cons]
      by_cases hcx : c.confidence < x.confidence
      · rw [pickBetter_of_lt c x hcx]
        obtain ⟨hall, hle, pre, post, hdec, hpre⟩ := ih x
        refine ⟨?_, le_trans (le_of_lt hcx) hle, c :: pre, post, ?_, ?_⟩
        · intro b hb
          rcases List.mem_cons.mp hb with rfl | hb2
          · exact hle
          · exact hall b hb2
        · rw [List.cons_append, ← hdec]
        · intro b hb
          rcases List.mem_cons.mp hb with rfl | hb2
          · exact lt_of_lt_of_le hcx hle
          · exact hpre b hb2
      · rw [pickBetter_of_not_lt c x hcx]
        obtain ⟨hall, hle, pre, post, hdec, hpre⟩ := ih c
        refine ⟨?_, hle, ?_⟩
        · intro b hb
          rcases List.mem_cons.mp hb with rfl | hb2
          · exact le_trans (le_of_not_lt hcx) hle
          · exact hall b hb2
        · cases pre with
          | nil =>
              simp only [List.nil_append] at hdec
              obtain ⟨hcr, hxs⟩ := List.cons_eq_cons.mp hdec
              refine ⟨[], x :: xs, ?_, by simp⟩
              rw [List.nil_append, ← hcr]
          | cons p ps =>
              rw [List.cons_append] at hdec
              obtain ⟨hcp, hxs⟩ := List.cons_eq_cons.mp hdec
              have hcr : c.confidence < (xs.foldl pickBetter c).confidence := by
                have hp := hpre p (by simp)
                rw [← hcp] at hp
                exact hp
              refine ⟨c :: x :: ps, post, ?_, ?_⟩
              · conv_lhs => rw [hxs]
                simp
              · intro b hb
                rcases List.mem_cons.mp hb with rfl | hb2
                · exact hcr
                · rcases List.mem_cons.mp hb2 with rfl | hb3
                  · exact lt_of_le_of_lt (le_of_not_lt hcx) hcr
                  · exact hpre b (by simp [hb3])

/-- Claim C4 amended: when `detect` returns an action, that action is a
candidate of the full results list (every matching pattern of every type
contributes one, dangerous candidates appended last), its confidence is
maximal among all candidates, and every candidate pushed before it has
strictly smaller confidence. -/
theorem detect_earliest_max_confidence (o : RegexOracle) (text : String)
    (st : DetectorState) (a : Candidate)
    (h : detect o text st = some a) :
    a ∈ resultsList o text st ∧
    (∀ b ∈ resultsList o text st, b.confidence ≤ a.confidence) ∧
    ∃ pre post, resultsList o text st = pre ++ a :: post ∧
      ∀ b ∈ pre, b.confidence < a.confidence := by
  unfold detect at h
  cases hl : resultsList o text st with
  | nil => rw [hl] at h; exact absurd h (by simp [selectBest])
  | cons c cs =>
      rw [hl] at h
      simp only [selectBest, Option.some.injEq] at h
      obtain ⟨hall, hle, pre, post, hdec, hpre⟩ := foldl_pickBetter_spec cs c
      rw [h] at hall hle hdec hpre
      refine ⟨?_, ?_, pre, post, hdec, hpre⟩
      · rw [hdec]
        exact List.mem_append.mpr (Or.inr (List.mem_cons_self a post))
      · intro b hb
        rcases List.mem_cons.mp hb with rfl | hb2
        · exact hle
        · exact hall b hb2

theorem detect_earliest_max_confidence_witness :
    detect oFc tFc initialState = some candFc95 ∧
    (candFc95 ∈ resultsList oFc tFc initialState ∧
     (∀ b ∈ resultsList oFc tFc initialState, b.confidence ≤ candFc95.confidence) ∧
     ∃ pre post, resultsList oFc tFc initialState = pre ++ candFc95 :: post ∧
       ∀ b ∈ pre, b.confidence < candFc95.confidence) :=
  ⟨detect_oFc, detect_earliest_max_confidence oFc tFc initialState candFc95 detect_oFc⟩

/-! ## C9 — factor evaluation commutes -/

/-- Whether a factor value is the Promise of the `async` factor. -/
def isPromiseVal : FactorValue → Bool
  | FactorValue.fin _ => false
  | FactorValue.promiseVal => true

/-- The finite part of a factor value. -/
def finPart : FactorValue → ℚ
  | FactorValue.fin q => q
  | FactorValue.promiseVal => 0

lemma foldl_jsAddFactor_nan (l : List FactorValue) :
    l.foldl jsAddFactor JSNum.nan = JSNum.nan := by
  induction l with
  | nil => rfl
  | cons v vs ih => cases v <;> simpa only [List.foldl_cons, jsAddFactor] using ih

/-- The factor fold is NaN when some factor returned a Promise, and the
rational sum otherwise. -/
lemma foldl_jsAddFactor_char (b : ℚ) (l : List FactorValue) :
    l.foldl jsAddFactor (JSNum.num b) =
      if l.any isPromiseVal then JSNum.nan
      else JSNum.num (b + (l.map finPart).sum) := by
  induction l generalizing b with
  | nil => simp
  | cons v vs ih =>
      cases v with
      | fin q =>
          simp only [List.foldl_cons, jsAddFactor]
          rw [ih (b + q)]
          simp only [List.any_cons, isPromiseVal, Bool.false_or, List.map_cons,
            List.sum_cons, finPart]
          split
          · rfl
          · congr 1
            ring
      | promiseVal =>
          simp only [List.foldl_cons, jsAddFactor, foldl_jsAddFactor_nan,
            List.any_cons, isPromiseVal, Bool.true_or, if_true]

lemma perm_any_eq {α : Type} (p : α → Bool) {l l2 : List α}
    (h : List.Perm l l2) : l.any p = l2.any p := by
  cases h1 : l.any p with
  | true =>
      obtain ⟨x, hx, hpx⟩ := List.any_eq_true.mp h1
      exact (List.any_eq_true.mpr ⟨x, h.mem_iff.mp hx, hpx⟩).symm
  | false =>
      cases h2 : l2.any p with
      | false => rfl
      | true =>
          obtain ⟨x, hx, hpx⟩ := List.any_eq_true.mp h2
          have h3 : l.any p = true := List.any_eq_true.mpr ⟨x, h.mem_iff.mpr hx, hpx⟩
          rw [h1] at h3
          exact absurd h3 (by simp)

lemma foldl_jsAddFactor_perm (b : ℚ) {l l2 : List FactorValue}
    (h : List.Perm l l2) :
    l.foldl jsAddFactor (JSNum.num b) = l2.foldl jsAddFactor (JSNum.num b) := by
  rw [foldl_jsAddFactor_char, foldl_jsAddFactor_char, perm_any_eq isPromiseVal h,
    (h.map finPart).sum_eq]

/-- Claim C9: the risk score of `calculateRisk` does not change when the risk
factors of the action definition are evaluated in any permuted order: the
factor contributions enter only through an order-insensitive fold (a
rational sum, or NaN as soon as any factor returned a Promise). -/
theorem risk_factors_commute (d : ActionDef)
    (perm : List (String × RiskFactor)) (ctx : FactorCtx)
    (h : List.Perm d.riskFactors perm) :
    calculateRisk { d with riskFactors := perm } ctx = calculateRisk d ctx := by
  unfold calculateRisk
  simp only []
  rw [foldl_jsAddFactor_perm _ ((h.map (fun f => f.2 ctx)).symm)]

/-- The `npm_install` factor list with its first two factors swapped. -/
def permNpmFactors : List (String × RiskFactor) :=
  [("unknown_package", unknown_package), ("global", global),
   ("dev_only", dev_only)]

theorem risk_factors_commute_witness :
    List.Perm npm_install_def.riskFactors permNpmFactors ∧
    calculateRisk { npm_install_def with riskFactors := permNpmFactors }
        ⟨"lodash", "npm install lodash", [], false⟩ =
      calculateRisk npm_install_def ⟨"lodash", "npm install lodash", [], false⟩ :=
  ⟨List.Perm.swap _ _ _,
   risk_factors_commute npm_install_def permNpmFactors
     ⟨"lodash", "npm install lodash", [], false⟩ (List.Perm.swap _ _ _)⟩

/-! ## C8 — history is capped, the per-target counters are not -/

/-- Association-list lemmas for the JS `Map` model. -/

lemma mapGet_mapSet {β : Type} (m : List (String × β)) (t k : String) (v : β) :
    mapGet (mapSet m t v) k = if t = k then some v else mapGet m k := by
  induction m with
  | nil =>
      by_cases h : t = k <;> simp [mapSet, mapGet, h]
  | cons kv rest ih =>
      obtain ⟨k2, v2⟩ := kv
      by_cases h2 : k2 = t
      · subst h2
        by_cases hk : k2 = k <;> simp [mapSet, mapGet, hk]
      · by_cases hk : k2 = k
        · subst hk
          have ht : ¬ t = k2 := fun he => h2 he.symm
          simp [mapSet, mapGet, h2, ht]
        · simp [mapSet, mapGet, h2, hk, ih]

lemma mapSet_append_of_none {β : Type} (m : List (String × β)) (k : String)
    (v : β) (h : mapGet m k = none) : mapSet m k v = m ++ [(k, v)] := by
  induction m with
  | nil => rfl
  | cons kv rest ih =>
      obtain ⟨k2, v2⟩ := kv
      by_cases h2 : k2 = k
      · rw [h2] at h
        simp [mapGet] at h
      · simp only [mapGet, if_neg h2] at h
        simp [mapSet, h2, ih h]

lemma mapGet_append_of_none {β : Type} (m1 m2 : List (String × β)) (k : String)
    (h : mapGet m1 k = none) : mapGet (m1 ++ m2) k = mapGet m2 k := by
  induction m1 with
  | nil => rfl
  | cons kv rest ih =>
      obtain ⟨k2, v2⟩ := kv
      by_cases h2 : k2 = k
      · rw [h2] at h; simp [mapGet] at h
      · simp only [mapGet, if_neg h2] at h
        simp [mapGet, h2, ih h]

lemma mapGet_append_of_some {β : Type} (m1 m2 : List (String × β)) (k : String)
    (v : β) (h : mapGet m1 k = some v) : mapGet (m1 ++ m2) k = some v := by
  induction m1 with
  | nil => simp [mapGet] at h
  | cons kv rest ih =>
      obtain ⟨k2, v2⟩ := kv
      by_cases h2 : k2 = k
      · simp only [mapGet, if_pos h2] at h ⊢
        simpa using h
      · simp only [mapGet, if_neg h2] at h ⊢
        exact ih h

/-- A detected `file_create` action on target `t` (the fields besides
`type` and `target` are irrelevant to `recordAction`'s counters). -/
def mkCreate (t : String) : Candidate :=
  { type := ActionType.file_create, target := t, confidence := 95/100,
    riskScore := JSNum.num (2/10), riskLevel := RiskLevel.low,
    reason := none, raw := t }

/-- The n-th distinct file path: `"a"`, `"aa"`, `"aaa"`, … -/
def aKey (n : ℕ) : String := String.mk (List.replicate (n + 1) 'a')

lemma aKey_length (n : ℕ) : (aKey n).length = n + 1 := by
  simp [aKey, String.length]

lemma aKey_inj {m n : ℕ} (h : aKey m = aKey n) : m = n := by
  have h2 := congrArg String.length h
  rw [aKey_length, aKey_length] at h2
  omega

lemma aKey_ne_empty (n : ℕ) : aKey n ≠ "" := by
  intro h
  have h2 := congrArg String.length h
  rw [aKey_length] at h2
  simp [String.length] at h2

/-- Folding a list of detected actions through `recordAction`. -/
def recordActions (st : DetectorState) (acts : List Candidate) : DetectorState :=
  acts.foldl recordAction st

/-- The detector state after recording `file_create` actions on the first
`n` distinct paths. -/
def runCreates (n : ℕ) : DetectorState :=
  (List.range n).foldl (fun st i => recordAction st (mkCreate (aKey i))) initialState

lemma runCreates_succ (n : ℕ) :
    runCreates (n + 1) = recordAction (runCreates n) (mkCreate (aKey n)) := by
  unfold runCreates
  rw [List.range_succ, List.foldl_append, List.foldl_cons, List.foldl_nil]

lemma recordAction_create_fileStats (st : DetectorState) (t : String)
    (h : t ≠ "") :
    (recordAction st (mkCreate t)).fileStats =
      mapSet st.fileStats t
        { creates := ((mapGet st.fileStats t).getD ⟨0, 0, 0⟩).creates + 1,
          edits := ((mapGet st.fileStats t).getD ⟨0, 0, 0⟩).edits,
          deletes := ((mapGet st.fileStats t).getD ⟨0, 0, 0⟩).deletes } := by
  simp [recordAction, mkCreate, actionTypeName, strStartsWith, h]

/-- The expected `fileStats` map after `runCreates n`: one entry per path,
in insertion order, each with a single create. -/
def createdStats (n : ℕ) : List (String × FileStat) :=
  (List.range n).map (fun i => (aKey i, ⟨1, 0, 0⟩))

lemma createdStats_succ (n : ℕ) :
    createdStats (n + 1) = createdStats n ++ [(aKey n, ⟨1, 0, 0⟩)] := by
  unfold createdStats
  rw [List.range_succ, List.map_append]
  rfl

lemma mapGet_createdStats_none (n : ℕ) (k : String)
    (hk : ∀ i < n, aKey i ≠ k) : mapGet (createdStats n) k = none := by
  induction n with
  | zero => rfl
  | succ n ih =>
      rw [createdStats_succ,
        mapGet_append_of_none _ _ _ (ih (fun i hi => hk i (by omega)))]
      simp [mapGet, hk n (by omega)]

lemma mapGet_createdStats_some (n i : ℕ) (hi : i < n) :
    mapGet (createdStats n) (aKey i) = some ⟨1, 0, 0⟩ := by
  induction n with
  | zero => omega
  | succ n ih =>
      rw [createdStats_succ]
      by_cases h : i < n
      · exact mapGet_append_of_some _ _ _ _ (ih h)
      · have hin : i = n := by omega
        rw [hin]
        rw [mapGet_append_of_none _ _ _
          (mapGet_createdStats_none n _ (fun j hj heq => by
            have := aKey_inj heq; omega))]
        simp [mapGet]

lemma runCreates_fileStats (n : ℕ) :
    (runCreates n).fileStats = createdStats n := by
  induction n with
  | zero => rfl
  | succ n ih =>
      rw [runCreates_succ, recordAction_create_fileStats _ _ (aKey_ne_empty n), ih]
      have hn : mapGet (createdStats n) (aKey n) = none :=
        mapGet_createdStats_none n _ (fun i hi heq => by
          have := aKey_inj heq; omega)
      rw [hn, mapSet_append_of_none _ _ _ hn, createdStats_succ]
      simp

/-- Claim C8 counterexample: after 1001 detected creations of 1001 distinct
paths, `fileStats` holds 1001 entries — more than the claimed cap — and
the oldest entry is still present: no eviction ever happens in
`recordAction` for the per-target counters. -/
theorem file_stats_grow_unbounded :
    (runCreates 1001).fileStats.length = 1001 ∧
    1001 > 1000 ∧
    mapGet (runCreates 1001).fileStats (aKey 0) = some ⟨1, 0, 0⟩ := by
  refine ⟨?_, by norm_num, ?_⟩
  · rw [runCreates_fileStats]
    simp [createdStats]
  · rw [runCreates_fileStats]
    exact mapGet_createdStats_some 1001 0 (by norm_num)

lemma recordAction_history_le (st : DetectorState) (a : Candidate) :
    (recordAction st a).history.length ≤ 1000 := by
  simp only [recordAction]
  split
  · rw [List.length_drop]
    omega
  · next h =>
      simp only [List.length_append, List.length_cons, List.length_nil] at h ⊢
      omega

lemma recordAction_fileStats_keep (st : DetectorState) (a : Candidate)
    (k : String) (hk : mapGet st.fileStats k ≠ none) :
    mapGet (recordAction st a).fileStats k ≠ none := by
  simp only [recordAction]
  split
  · rw [mapGet_mapSet]
    split
    · simp
    · exact hk
  · exact hk

lemma recordAction_commandStats_keep (st : DetectorState) (a : Candidate)
    (c : String) (hc : mapGet st.commandStats c ≠ none) :
    mapGet (recordAction st a).commandStats c ≠ none := by
  simp only [recordAction]
  split
  · rw [mapGet_mapSet]
    split
    · simp
    · exact hc
  · exact hc

/-- Claim C8 amended: over any sequence of recorded actions, the action
history buffer stays bounded by `max` of its starting length and the
1000-entry cap (the only eviction in `recordAction`), while neither
per-target map is ever evicted: a key present in `fileStats` or in
`commandStats` stays present forever. -/
theorem history_capped_stats_never_evicted (acts : List Candidate)
    (st : DetectorState) (k c : String) :
    (recordActions st acts).history.length ≤ max st.history.length 1000 ∧
    (mapGet st.fileStats k ≠ none →
      mapGet (recordActions st acts).fileStats k ≠ none) ∧
    (mapGet st.commandStats c ≠ none →
      mapGet (recordActions st acts).commandStats c ≠ none) := by
  induction acts generalizing st with
  | nil => exact ⟨le_max_left _ _, fun h => h, fun h => h⟩
  | cons a as ih =>
      obtain ⟨h1, h2, h3⟩ := ih (recordAction st a)
      refine ⟨le_trans h1 ?_, ?_, ?_⟩
      · exact max_le (le_trans (recordAction_history_le st a) (le_max_right _ _))
          (le_max_right _ _)
      · exact fun h => h2 (recordAction_fileStats_keep st a k h)
      · exact fun h => h3 (recordAction_commandStats_keep st a c h)

/-- A state that already tracks one file and one command. -/
def trackedState : DetectorState :=
  { history := [], fileStats := [("notes.txt", ⟨1, 0, 0⟩)],
    commandStats := [("npm", 3)], prodEnv := false }

theorem history_capped_stats_never_evicted_witness :
    mapGet trackedState.fileStats "notes.txt" ≠ none ∧
    mapGet trackedState.commandStats "npm" ≠ none ∧
    (recordActions trackedState [mkCreate (aKey 0)]).history.length ≤
      max trackedState.history.length 1000 ∧
    mapGet (recordActions trackedState [mkCreate (aKey 0)]).fileStats
      "notes.txt" ≠ none ∧
    mapGet (recordActions trackedState [mkCreate (aKey 0)]).commandStats
      "npm" ≠ none := by
  have hf : mapGet trackedState.fileStats "notes.txt" ≠ none := by
    simp [trackedState, mapGet]
  have hcm : mapGet trackedState.commandStats "npm" ≠ none := by
    simp [trackedState, mapGet]
  obtain ⟨h1, h2, h3⟩ :=
    history_capped_stats_never_evicted [mkCreate (aKey 0)] trackedState
      "notes.txt" "npm"
  exact ⟨hf, hcm, h1, h2 hf, h3 hcm⟩

end EdgeAutopilot
